import Mathlib

/-
Verification of the AI-response reconciliation pipeline of the
Gmail_InformationManagment repository (Next.js API routes).

Embedded source files:
  - src/nextjs-gmail-workflow/src/app/api/organize/categorize/route.ts
    (Ollama variant: extractThemeFromTask, extractCategoryFromTask, POST)
  - src/nextjs-gmail-workflow/src/app/api/todo/generate-tasks/route.ts (POST)
  - src/nextjs-gmail-workflow/src/app/api/organize/draft/route.ts (tone handling)
  - src/lib/json-helper.ts (parseAIResponse) is not present in the source
    tree; it is modelled from the specification (spec.md section 4.3).

JavaScript-level behaviours (truthiness, template-literal stringification,
string `includes`) are embedded explicitly as small helper functions.
-/

/-- Does the first list start with the second (character-wise)? Models the
prefix test used to implement JS `String.prototype.includes`. -/
def charsStartsWith : List Char → List Char → Bool
  | _, [] => true
  | [], _ :: _ => false
  | c :: cs, p :: ps => c = p && charsStartsWith cs ps

/-- Does `pat` occur as a contiguous run inside `s`? -/
def hasInfixChars (pat : List Char) : List Char → Bool
  | [] => pat.isEmpty
  | c :: cs => charsStartsWith (c :: cs) pat || hasInfixChars pat cs

/-- JS `s.includes(pat)`: substring containment (empty pattern matches). -/
def strIncludes (s pat : String) : Bool :=
  hasInfixChars pat.data s.data

/-- JS `toLowerCase` (ASCII range), over the character list so that it
reduces in the kernel. -/
def strToLower (s : String) : String :=
  String.mk (s.data.map Char.toLower)

/-- JS `s || d` for strings: the empty string is falsy. -/
def jsOrStr (s d : String) : String :=
  if s = "" then d else s

mutual
/-- A JSON value, as produced by `JSON.parse`. Number literals are kept as
their raw source text. Mutual with `JsonList`/`JsonFields` so that all
recursions over values stay structural. -/
inductive Json where
  | null : Json
  | bool (b : Bool) : Json
  | num (raw : String) : Json
  | str (s : String) : Json
  | arr (items : JsonList) : Json
  | obj (fields : JsonFields) : Json
  deriving DecidableEq

/-- A list of JSON values (array contents). -/
inductive JsonList where
  | nil : JsonList
  | cons (hd : Json) (tl : JsonList) : JsonList
  deriving DecidableEq

/-- Key/value pairs of a JSON object, in source order. -/
inductive JsonFields where
  | nil : JsonFields
  | cons (key : String) (val : Json) (tl : JsonFields) : JsonFields
  deriving DecidableEq
end

/-- Number of elements of a JSON array. -/
def JsonList.length : JsonList → Nat
  | .nil => 0
  | .cons _ tl => tl.length + 1

/-- Index into a JSON array, JS `a[i]` (out of range gives `undefined`,
modelled as `none`). -/
def JsonList.get? : JsonList → Nat → Option Json
  | .nil, _ => none
  | .cons hd _, 0 => some hd
  | .cons _ tl, n + 1 => tl.get? n

/-- Last binding of `key` in an object (JSON.parse keeps the last duplicate). -/
def JsonFields.lookupLast : JsonFields → String → Option Json
  | .nil, _ => none
  | .cons k v tl, key =>
      match tl.lookupLast key with
      | some r => some r
      | none => if k = key then some v else none

/-- JS property access `o.key` on a parsed value: defined for objects,
`undefined` (`none`) otherwise. -/
def Json.getField : Json → String → Option Json
  | .obj fs, key => fs.lookupLast key
  | _, _ => none

/-- Is the raw text of a JSON number literal the number zero? -/
def jsonNumIsZero (raw : String) : Bool :=
  let mantissa := raw.data.takeWhile (fun c => c ≠ 'e' && c ≠ 'E')
  let digits := mantissa.filter (fun c => c ≠ '-' && c ≠ '+' && c ≠ '.')
  digits.all (fun c => c = '0')

/-- JS truthiness of a parsed JSON value: `null`, `false`, `0` and `""` are
falsy; arrays and objects are always truthy. -/
def Json.truthy : Json → Bool
  | .null => false
  | .bool b => b
  | .num raw => !(jsonNumIsZero raw)
  | .str s => !(s = "")
  | .arr _ => true
  | .obj _ => true

/-- Truthiness of a possibly-absent property (`undefined` is falsy). -/
def jsOptTruthy : Option Json → Bool
  | none => false
  | some v => v.truthy

mutual
/-- JS string coercion of a value, as in a template literal. -/
def Json.jsToString : Json → String
  | .null => "null"
  | .bool true => "true"
  | .bool false => "false"
  | .num raw => raw
  | .str s => s
  | .arr items => jsToStringItems items
  | .obj _ => "[object Object]"

/-- JS `Array.prototype.toString`: elements joined by commas. -/
def jsToStringItems : JsonList → String
  | .nil => ""
  | .cons hd .nil => hd.jsToString
  | .cons hd (.cons h2 tl) => hd.jsToString ++ "," ++ jsToStringItems (.cons h2 tl)
end

/-- JS template-literal rendering of a possibly-absent property:
`undefined` prints as the string `undefined`. -/
def jsTemplate : Option Json → String
  | none => "undefined"
  | some v => v.jsToString

/-- JSON whitespace. -/
def isJsonWs (c : Char) : Bool :=
  c = Char.ofNat 32 || c = Char.ofNat 9 || c = Char.ofNat 10 || c = Char.ofNat 13

/-- Drop leading JSON whitespace. -/
def skipWs : List Char → List Char
  | [] => []
  | c :: cs => if isJsonWs c then skipWs cs else c :: cs

/-- Value of a hexadecimal digit. -/
def hexVal? (c : Char) : Option Nat :=
  if c.isDigit then some (c.toNat - 48)
  else if 'a' ≤ c && c ≤ 'f' then some (c.toNat - 87)
  else if 'A' ≤ c && c ≤ 'F' then some (c.toNat - 55)
  else none

/-- One-character JSON string escapes. -/
def escSimple? (c : Char) : Option Char :=
  if c = Char.ofNat 34 then some (Char.ofNat 34)
  else if c = Char.ofNat 92 then some (Char.ofNat 92)
  else if c = '/' then some '/'
  else if c = 'b' then some (Char.ofNat 8)
  else if c = 'f' then some (Char.ofNat 12)
  else if c = 'n' then some (Char.ofNat 10)
  else if c = 'r' then some (Char.ofNat 13)
  else if c = 't' then some (Char.ofNat 9)
  else none

/-- Parse the body of a JSON string (after the opening quote), returning the
content characters and the remainder after the closing quote. -/
def pStrBody : Nat → List Char → Option (List Char × List Char)
  | 0, _ => none
  | _ + 1, [] => none
  | fuel + 1, c :: cs =>
    if c = Char.ofNat 34 then some ([], cs)
    else if c = Char.ofNat 92 then
      match cs with
      | [] => none
      | e :: cs2 =>
        if e = 'u' then
          match cs2 with
          | h1 :: h2 :: h3 :: h4 :: cs3 =>
            match hexVal? h1, hexVal? h2, hexVal? h3, hexVal? h4 with
            | some a, some b, some c2, some d =>
              match pStrBody fuel cs3 with
              | some (content, rest) =>
                  some (Char.ofNat (((a * 16 + b) * 16 + c2) * 16 + d) :: content, rest)
              | none => none
            | _, _, _, _ => none
          | _ => none
        else
          match escSimple? e with
          | some ec =>
            match pStrBody fuel cs2 with
            | some (content, rest) => some (ec :: content, rest)
            | none => none
          | none => none
    else
      match pStrBody fuel cs with
      | some (content, rest) => some (c :: content, rest)
      | none => none

/-- Parse a JSON number literal, returning its raw text and the remainder. -/
def pNum (cs : List Char) : Option (String × List Char) :=
  let (sign, cs1) :=
    match cs with
    | c :: rest => if c = '-' then ([c], rest) else (([] : List Char), cs)
    | [] => ([], cs)
  let intPart := cs1.takeWhile Char.isDigit
  let cs2 := cs1.drop intPart.length
  if intPart.isEmpty then none
  else
    let (fracPart, cs3) :=
      match cs2 with
      | c :: rest =>
        if c = '.' then
          let ds := rest.takeWhile Char.isDigit
          if ds.isEmpty then (([] : List Char), cs2) else (c :: ds, rest.drop ds.length)
        else ([], cs2)
      | [] => ([], cs2)
    let (expPart, cs4) :=
      match cs3 with
      | c :: rest =>
        if c = 'e' || c = 'E' then
          let (signE, rest2) :=
            match rest with
            | s :: r2 => if s = '+' || s = '-' then ([s], r2) else (([] : List Char), rest)
            | [] => ([], rest)
          let ds := rest2.takeWhile Char.isDigit
          if ds.isEmpty then (([] : List Char), cs3)
          else (c :: (signE ++ ds), rest2.drop ds.length)
        else ([], cs3)
      | [] => ([], cs3)
    some (String.mk (sign ++ intPart ++ fracPart ++ expPart), cs4)

/-- Expect a fixed run of characters. -/
def expectChars (pat cs : List Char) : Option (List Char) :=
  if charsStartsWith cs pat then some (cs.drop pat.length) else none

mutual
/-- Recursive-descent JSON value reader (fuel-indexed). -/
def pValue : Nat → List Char → Option (Json × List Char)
  | 0, _ => none
  | fuel + 1, cs =>
    match skipWs cs with
    | [] => none
    | c :: rest =>
      if c = Char.ofNat 123 then
        match skipWs rest with
        | c2 :: rest2 =>
          if c2 = Char.ofNat 125 then some (Json.obj JsonFields.nil, rest2)
          else
            match pObjItems fuel (c2 :: rest2) with
            | some (fs, r) => some (Json.obj fs, r)
            | none => none
        | [] => none
      else if c = '[' then
        match skipWs rest with
        | c2 :: rest2 =>
          if c2 = ']' then some (Json.arr JsonList.nil, rest2)
          else
            match pArrItems fuel (c2 :: rest2) with
            | some (items, r) => some (Json.arr items, r)
            | none => none
        | [] => none
      else if c = Char.ofNat 34 then
        match pStrBody fuel rest with
        | some (content, r) => some (Json.str (String.mk content), r)
        | none => none
      else if c = 't' then
        match expectChars ['r', 'u', 'e'] rest with
        | some r => some (Json.bool true, r)
        | none => none
      else if c = 'f' then
        match expectChars ['a', 'l', 's', 'e'] rest with
        | some r => some (Json.bool false, r)
        | none => none
      else if c = 'n' then
        match expectChars ['u', 'l', 'l'] rest with
        | some r => some (Json.null, r)
        | none => none
      else if c = '-' || c.isDigit then
        match pNum (c :: rest) with
        | some (raw, r) => some (Json.num raw, r)
        | none => none
      else none

/-- One or more array items separated by commas, ended by a close bracket.
A comma directly before the close bracket (trailing comma) fails, as in
strict `JSON.parse`. -/
def pArrItems : Nat → List Char → Option (JsonList × List Char)
  | 0, _ => none
  | fuel + 1, cs =>
    match pValue fuel cs with
    | none => none
    | some (v, r) =>
      match skipWs r with
      | c :: r2 =>
        if c = ',' then
          match pArrItems fuel r2 with
          | some (vs, r3) => some (JsonList.cons v vs, r3)
          | none => none
        else if c = ']' then some (JsonList.cons v JsonList.nil, r2)
        else none
      | [] => none

/-- One or more object members separated by commas, ended by a close brace. -/
def pObjItems : Nat → List Char → Option (JsonFields × List Char)
  | 0, _ => none
  | fuel + 1, cs =>
    match skipWs cs with
    | c :: rest =>
      if c = Char.ofNat 34 then
        match pStrBody fuel rest with
        | some (keyChars, r) =>
          match skipWs r with
          | c2 :: r2 =>
            if c2 = ':' then
              match pValue fuel r2 with
              | some (v, r3) =>
                match skipWs r3 with
                | c3 :: r4 =>
                  if c3 = ',' then
                    match pObjItems fuel r4 with
                    | some (fs, r5) => some (JsonFields.cons (String.mk keyChars) v fs, r5)
                    | none => none
                  else if c3 = Char.ofNat 125 then
                    some (JsonFields.cons (String.mk keyChars) v JsonFields.nil, r4)
                  else none
                | [] => none
              | none => none
            else none
          | [] => none
        | none => none
      else none
    | [] => none
end

/-- Strict JSON parse of a whole string (trailing whitespace allowed),
modelling `JSON.parse`. -/
def jsonParse (s : String) : Option Json :=
  match pValue (2 * s.data.length + 2) s.data with
  | some (v, rest) => if (skipWs rest).isEmpty then some v else none
  | none => none

/-- Modelled from the spec: repair step of section 4.3 that strips
leading/trailing prose by slicing from the first open bracket to the last
close bracket; the text is left unchanged when no such slice exists. -/
def sliceBrackets (s : String) : String :=
  match s.data.findIdx? (fun c => c = '['), s.data.reverse.findIdx? (fun c => c = ']') with
  | some i, some rj =>
    let j := s.data.length - 1 - rj
    if i ≤ j then String.mk ((s.data.drop i).take (j - i + 1)) else s
  | _, _ => s

/-- Replace every occurrence of `pat` (left to right, non-overlapping). -/
def replChars : Nat → List Char → List Char → List Char → List Char
  | 0, _, _, s => s
  | fuel + 1, pat, rep, s =>
    match s with
    | [] => []
    | c :: cs =>
      if !pat.isEmpty && charsStartsWith (c :: cs) pat then
        rep ++ replChars fuel pat rep ((c :: cs).drop pat.length)
      else
        c :: replChars fuel pat rep cs

/-- String-level occurrence replacement. -/
def replaceSub (s pat rep : String) : String :=
  String.mk (replChars (s.data.length + 1) pat.data rep.data s.data)

/-- Modelled from the spec: repair step of section 4.3 that strips markdown
code-fence markers. -/
def stripFences (s : String) : String :=
  replaceSub (replaceSub s "```json" "") "```" ""

/-- Character scan for quote normalization: converts single quotes to double
quotes outside of already-double-quoted strings (first flag: inside a double
quote; second flag: previous character was an unconsumed escape). -/
def normQuotesChars : Bool → Bool → List Char → List Char
  | _, _, [] => []
  | inDouble, true, c :: cs => c :: normQuotesChars inDouble false cs
  | inDouble, false, c :: cs =>
    if c = Char.ofNat 92 then c :: normQuotesChars inDouble true cs
    else if c = Char.ofNat 34 then c :: normQuotesChars (!inDouble) false cs
    else if c = Char.ofNat 39 then
      (if inDouble then c else Char.ofNat 34) :: normQuotesChars inDouble false cs
    else c :: normQuotesChars inDouble false cs

/-- Modelled from the spec: repair step of section 4.3 normalizing
single-quoted keys/values to double-quoted ones, only outside of
already-double-quoted strings. -/
def normalizeQuotes (s : String) : String :=
  String.mk (normQuotesChars false false s.data)

/-- Is the next non-whitespace character a closing bracket or brace? -/
def nextNonWsIsCloser : List Char → Bool
  | [] => false
  | c :: cs =>
    if isJsonWs c then nextNonWsIsCloser cs
    else c = ']' || c = Char.ofNat 125

/-- Drop commas that directly precede (up to whitespace) a closer. -/
def stripCommasChars : List Char → List Char
  | [] => []
  | c :: cs =>
    if c = ',' && nextNonWsIsCloser cs then stripCommasChars cs
    else c :: stripCommasChars cs

/-- Modelled from the spec: repair step of section 4.3 removing trailing
commas before a closing bracket or brace. -/
def stripTrailingCommas (s : String) : String :=
  String.mk (stripCommasChars s.data)

/-- Parse a string as a JSON array, failing on any other JSON value. -/
def tryParseArr (s : String) : Option JsonList :=
  match jsonParse s with
  | some (Json.arr items) => some items
  | _ => none

/-- Modelled from the spec: `parseAIResponse` of src/lib/json-helper.ts is
not present under src/ (only its import sites are), so it is embedded from
spec.md section 4.3: try a direct JSON-array parse; otherwise apply the
textual repairs (bracket slice, fence strip, quote normalization, trailing
comma removal) cumulatively, re-attempting the parse after each repair and
stopping at the first success; when every attempt fails, yield the empty
array rather than an error. -/
def parseAIResponse (responseText : String) : JsonList :=
  match tryParseArr responseText with
  | some items => items
  | none =>
    let t1 := sliceBrackets responseText
    match tryParseArr t1 with
    | some items => items
    | none =>
      let t2 := stripFences t1
      match tryParseArr t2 with
      | some items => items
      | none =>
        let t3 := normalizeQuotes t2
        match tryParseArr t3 with
        | some items => items
        | none =>
          let t4 := stripTrailingCommas t3
          match tryParseArr t4 with
          | some items => items
          | none => JsonList.nil

/-- The `Email` interface of categorize/route.ts (lines 9-19): id, subject,
sender, date, snippet, optional body, labels, optional theme/category. -/
structure Email where
  id : String
  subject : String
  sender : String
  date : String
  snippet : String
  body : Option String
  labels : List String
  theme : Option String
  category : Option String
  deriving DecidableEq

/-- The `CategorizedEmail` interface (categorize/route.ts lines 21-24): an
email whose theme and category are definitely set. -/
structure CategorizedEmail where
  id : String
  subject : String
  sender : String
  date : String
  snippet : String
  body : Option String
  labels : List String
  theme : String
  category : String
  deriving DecidableEq

/-- `extractThemeFromTask` of categorize/route.ts (lines 27-53): keyword scan
of the lowercased `title description` text through an ordered if-chain. -/
def extractThemeFromTask (title description : String) : String :=
  let text := strToLower (title ++ " " ++ description)
  if strIncludes text "work" || strIncludes text "meeting" ||
     strIncludes text "project" || strIncludes text "client" then "work"
  else if strIncludes text "personal" || strIncludes text "family" ||
     strIncludes text "friend" then "personal"
  else if strIncludes text "finance" || strIncludes text "money" ||
     strIncludes text "payment" || strIncludes text "bill" then "finance"
  else if strIncludes text "shopping" || strIncludes text "purchase" ||
     strIncludes text "buy" then "shopping"
  else if strIncludes text "travel" || strIncludes text "trip" ||
     strIncludes text "flight" then "travel"
  else if strIncludes text "health" || strIncludes text "medical" ||
     strIncludes text "doctor" then "health"
  else if strIncludes text "education" || strIncludes text "course" ||
     strIncludes text "learning" then "education"
  else "other"

/-- `extractCategoryFromTask` of categorize/route.ts (lines 55-68). -/
def extractCategoryFromTask (title description : String) : String :=
  let text := strToLower (title ++ " " ++ description)
  if strIncludes text "meeting" then "meeting"
  else if strIncludes text "project" then "project"
  else if strIncludes text "client" then "client"
  else if strIncludes text "payment" then "payment"
  else if strIncludes text "purchase" then "purchase"
  else if strIncludes text "trip" then "trip"
  else if strIncludes text "medical" then "medical"
  else if strIncludes text "course" then "course"
  else "general"

/-- The all-default record pushed by the fallback branches of
categorize/route.ts (lines 163-169 and 175-181): spread of the email with
theme `other` and category `general`. -/
def defaultRecord (e : Email) : CategorizedEmail :=
  { id := e.id, subject := e.subject, sender := e.sender, date := e.date,
    snippet := e.snippet, body := e.body, labels := e.labels,
    theme := "other", category := "general" }

/-- One iteration of the merge loop of categorize/route.ts (lines 151-170):
given the parsed element at this email's index (if any), either derive
theme/category from its title/description or push the full default. -/
def recordFor (e : Email) : Option Json → CategorizedEmail
  | some c =>
    if c.truthy && jsOptTruthy (c.getField "title") then
      let theme := extractThemeFromTask (jsTemplate (c.getField "title"))
        (jsTemplate (c.getField "description"))
      let category := extractCategoryFromTask (jsTemplate (c.getField "title"))
        (jsTemplate (c.getField "description"))
      { id := e.id, subject := e.subject, sender := e.sender, date := e.date,
        snippet := e.snippet, body := e.body, labels := e.labels,
        theme := jsOrStr theme "other", category := jsOrStr category "general" }
    else defaultRecord e
  | none => defaultRecord e

/-- The indexed `batch.forEach` merge of categorize/route.ts (lines 151-170):
the element at position `i` of the parsed array is paired with the `i`-th
email of the batch. -/
def mergeCat (categorization : JsonList) : Nat → List Email → List CategorizedEmail
  | _, [] => []
  | i, e :: es => recordFor e (categorization.get? i) :: mergeCat categorization (i + 1) es

/-- The per-batch reconciliation of categorize/route.ts (lines 145-183):
parse the response text, then merge positionally with the batch. -/
def categorizeBatchRecords (batch : List Email) (responseText : String) : List CategorizedEmail :=
  mergeCat (parseAIResponse responseText) 0 batch

/-- Fuel-indexed batching loop; the fuel is an upper bound on the input
length, so the fallthrough `0, _ :: _` case is never reached on the
instances used. -/
def chunkGo : Nat → List Email → List (List Email)
  | 0, _ => []
  | _ + 1, [] => []
  | fuel + 1, e :: es => ((e :: es).take 10) :: chunkGo fuel ((e :: es).drop 10)

/-- The batching loop of categorize/route.ts (lines 91-96): consecutive
slices of at most `batchSize = 10` emails, in input order. -/
def chunk10 (emails : List Email) : List (List Email) :=
  chunkGo emails.length emails

/-- Outcome of one backend chat call: network-level failure (the JS promise
rejects), or a reply whose message content may be absent. -/
inductive ChatResult where
  | fail : ChatResult
  | msg (content : Option String) : ChatResult
  deriving DecidableEq

/-- Outcome of the categorize POST handler, by its return sites:
`backendUnavailable` is the 500 "Ollama server not available" response,
`invalidEmails` the 400 "Invalid emails data" response, `serverError` the
catch-all 500 "Failed to categorize emails" response, and `success` the 200
response carrying the categorized list. -/
inductive CatOutcome where
  | backendUnavailable : CatOutcome
  | invalidEmails : CatOutcome
  | serverError : CatOutcome
  | success (records : List CategorizedEmail) : CatOutcome
  deriving DecidableEq

/-- The batch loop of categorize/route.ts (lines 95-184): batch `i` is sent
to the backend (`replies i`); a rejected chat call aborts the whole request
(outer catch), an absent or empty reply skips the batch (the `if
(responseText)` guard has no else-branch), and a non-empty reply contributes
its reconciled records in order. -/
def runCatBatches (replies : Nat → ChatResult) : Nat → List (List Email) → Option (List CategorizedEmail)
  | _, [] => some []
  | i, b :: bs =>
    match replies i with
    | .fail => none
    | .msg m =>
      match runCatBatches replies (i + 1) bs with
      | none => none
      | some rest =>
        match m with
        | none => some rest
        | some s => some ((if s = "" then [] else categorizeBatchRecords b s) ++ rest)

/-- The categorize POST handler (categorize/route.ts lines 70-195): the
Ollama availability probe runs first (lines 75-82); then the emails field is
checked to be an array (lines 84-89; `none` models a missing or non-array
value); then the batches are processed sequentially. -/
def categorizeRoute (avail : Bool) (emailsField : Option (List Email))
    (replies : Nat → ChatResult) : CatOutcome :=
  if avail then
    match emailsField with
    | none => CatOutcome.invalidEmails
    | some emails =>
      match runCatBatches replies 0 (chunk10 emails) with
      | none => CatOutcome.serverError
      | some records => CatOutcome.success records
  else CatOutcome.backendUnavailable

/-- Outcome of the generate-tasks POST handler, by its return sites:
`invalidInput` is the 400 "No emails provided" response, `backendUnavailable`
the 500 "Ollama server not available" response, `emptyResponse` the 500 "No
response generated from AI" response, `serverError` the catch-all 500, and
`success` the 200 response carrying the parsed task list. -/
inductive TasksOutcome where
  | invalidInput : TasksOutcome
  | backendUnavailable : TasksOutcome
  | emptyResponse : TasksOutcome
  | serverError : TasksOutcome
  | success (tasks : JsonList) : TasksOutcome
  deriving DecidableEq

/-- The generate-tasks POST handler (generate-tasks/route.ts lines 9-135):
missing or empty emails list rejected first (lines 13-18), then the
availability probe (lines 20-28), then one chat call whose reply must be a
non-empty string (lines 92-126); the parsed tasks are returned as-is, with
no source-email linkage added. `tone` is destructured from the request (line
11) but never used. The route's parse-error branch (lines 105-120) is
unreachable under the spec-modelled total `parseAIResponse`. -/
def generateTasksRoute (emailsField : Option (List Email)) (tone : Option String)
    (avail : Bool) (chat : ChatResult) : TasksOutcome :=
  match emailsField with
  | none => TasksOutcome.invalidInput
  | some [] => TasksOutcome.invalidInput
  | some (_ :: _) =>
    if avail then
      match chat with
      | .fail => TasksOutcome.serverError
      | .msg none => TasksOutcome.emptyResponse
      | .msg (some s) =>
        if s = "" then TasksOutcome.emptyResponse
        else TasksOutcome.success (parseAIResponse s)
    else TasksOutcome.backendUnavailable

/-- The tone actually embedded in the draft prompt (draft/route.ts lines
42-63): the JS expression `tone || 'professional'`, which substitutes
`professional` only for an absent or empty (falsy) tone. -/
def draftToneUsed (tone : Option String) : String :=
  match tone with
  | none => "professional"
  | some s => if s = "" then "professional" else s

/-- The recognized tone set named by the spec (section 4.1); spec-side
definition used to compare the spec's contract with the code's behaviour. -/
def specRecognizedTones : List String :=
  ["formal", "informal", "professional", "friendly", "casual"]

/-- Spec-side reading of the keyword heuristic (section 4.3): a fixed
ordered table of (keyword group, label) pairs, first matching group wins,
falling through to the default label. -/
def firstMatch : List (List String × String) → String → String → String
  | [], dflt, _ => dflt
  | (kws, label) :: rest, dflt, text =>
    if kws.any (fun k => strIncludes text k) then label
    else firstMatch rest dflt text

/-- The theme keyword table in the order the source checks it. -/
def themeRules : List (List String × String) :=
  [(["work", "meeting", "project", "client"], "work"),
   (["personal", "family", "friend"], "personal"),
   (["finance", "money", "payment", "bill"], "finance"),
   (["shopping", "purchase", "buy"], "shopping"),
   (["travel", "trip", "flight"], "travel"),
   (["health", "medical", "doctor"], "health"),
   (["education", "course", "learning"], "education")]

/-- The category keyword table in the order the source checks it. -/
def categoryRules : List (List String × String) :=
  [(["meeting"], "meeting"), (["project"], "project"), (["client"], "client"),
   (["payment"], "payment"), (["purchase"], "purchase"), (["trip"], "trip"),
   (["medical"], "medical"), (["course"], "course")]

/-- A concrete email used by witnesses and counterexamples. -/
def sampleEmail : Email :=
  { id := "e1", subject := "Invoice due", sender := "billing@example.com",
    date := "2024-07-01", snippet := "Please pay the attached invoice by Friday",
    body := none, labels := ["INBOX"], theme := none, category := none }

/-- A well-formed model reply for task generation that omits any
email-linkage field, used to evaluate the code on claim C3's failing input. -/
def c3ReplyText : String :=
  "[\x7b\"title\":\"Reply to client inquiry\",\"description\":\"Respond about timeline\"\x7d]"

/-- The parsed task object of `c3ReplyText`. -/
def c3Task : Json :=
  Json.obj (JsonFields.cons "title" (Json.str "Reply to client inquiry")
    (JsonFields.cons "description" (Json.str "Respond about timeline") JsonFields.nil))

theorem JsonList.get?_of_length_le :
    ∀ (cat : JsonList) (i : Nat), cat.length ≤ i → cat.get? i = none
  | .nil, _, _ => rfl
  | .cons _ tl, n + 1, h =>
    JsonList.get?_of_length_le tl n (by simp [JsonList.length] at h; omega)

theorem mergeCat_length (cat : JsonList) :
    ∀ (i0 : Nat) (batch : List Email), (mergeCat cat i0 batch).length = batch.length := by
  intro i0 batch
  induction batch generalizing i0 with
  | nil => rfl
  | cons e es ih => simp [mergeCat, ih]

theorem mergeCat_get? (cat : JsonList) :
    ∀ (batch : List Email) (i0 i : Nat),
      (mergeCat cat i0 batch).get? i =
        (batch.get? i).map (fun e => recordFor e (cat.get? (i0 + i))) := by
  intro batch
  induction batch with
  | nil => intro i0 i; simp [mergeCat]
  | cons e es ih =>
    intro i0 i
    cases i with
    | zero => simp [mergeCat]
    | succ n =>
      have h : i0 + (n + 1) = (i0 + 1) + n := by omega
      simp only [mergeCat, List.get?_cons_succ]
      rw [ih (i0 + 1) n, h]

theorem chunkGo_join :
    ∀ (fuel : Nat) (xs : List Email), xs.length ≤ fuel → (chunkGo fuel xs).flatten = xs := by
  intro fuel
  induction fuel with
  | zero =>
    intro xs h
    have hx : xs = [] := List.eq_nil_of_length_eq_zero (Nat.le_zero.mp h)
    subst hx; rfl
  | succ f ih =>
    intro xs h
    cases xs with
    | nil => rfl
    | cons e es =>
      have hlen : ((e :: es).drop 10).length ≤ f := by
        simp only [List.length_drop, List.length_cons] at *
        omega
      simp only [chunkGo, List.flatten]
      rw [ih _ hlen, List.take_append_drop]

theorem chunkGo_chunk_le :
    ∀ (fuel : Nat) (xs : List Email) (b : List Email),
      b ∈ chunkGo fuel xs → b.length ≤ 10 := by
  intro fuel
  induction fuel with
  | zero => intro xs b h; simp [chunkGo] at h
  | succ f ih =>
    intro xs b h
    cases xs with
    | nil => simp [chunkGo] at h
    | cons e es =>
      simp only [chunkGo, List.mem_cons] at h
      rcases h with h | h
      · subst h; simp [List.length_take]
      · exact ih _ _ h

theorem runCatBatches_isSome (replies : Nat → ChatResult)
    (hnf : ∀ j, replies j ≠ ChatResult.fail) :
    ∀ (bs : List (List Email)) (i : Nat), ∃ recs, runCatBatches replies i bs = some recs := by
  intro bs
  induction bs with
  | nil => intro i; exact ⟨[], rfl⟩
  | cons b rest ih =>
    intro i
    obtain ⟨tailRecs, htail⟩ := ih (i + 1)
    cases hre : replies i with
    | fail => exact absurd hre (hnf i)
    | msg m =>
      cases m with
      | none => exact ⟨tailRecs, by simp [runCatBatches, hre, htail]⟩
      | some s =>
        exact ⟨(if s = "" then [] else categorizeBatchRecords b s) ++ tailRecs,
          by simp [runCatBatches, hre, htail]⟩

/-- C4: the keyword fallback classifies by the first matching substring rule
of a fixed ordered table (case-insensitively, via lowercasing the combined
title/description text), falling through to "other"/"general" when no rule
matches; in particular any pair whose combined lowercased text contains
"meeting" yields theme "work" and category "meeting". -/
theorem claim_C4 (title description : String) :
    extractThemeFromTask title description =
      firstMatch themeRules "other" (strToLower (title ++ " " ++ description)) ∧
    extractCategoryFromTask title description =
      firstMatch categoryRules "general" (strToLower (title ++ " " ++ description)) ∧
    (strIncludes (strToLower (title ++ " " ++ description)) "meeting" = true →
      extractThemeFromTask title description = "work" ∧
      extractCategoryFromTask title description = "meeting") := by
  refine ⟨?_, ?_, fun h => ⟨?_, ?_⟩⟩
  · simp [extractThemeFromTask, firstMatch, themeRules, List.any_cons, List.any_nil,
      Bool.or_assoc]
  · simp [extractCategoryFromTask, firstMatch, categoryRules, List.any_cons, List.any_nil]
  · simp [extractThemeFromTask, h]
  · simp [extractCategoryFromTask, h]

/-- C4 witness: a concrete pair containing "meeting" classified work/meeting. -/
theorem claim_C4_witness :
    strIncludes (strToLower ("Team Meeting" ++ " " ++ "discuss agenda")) "meeting" = true ∧
    extractThemeFromTask "Team Meeting" "discuss agenda" = "work" ∧
    extractCategoryFromTask "Team Meeting" "discuss agenda" = "meeting" :=
  ⟨by decide, ((claim_C4 "Team Meeting" "discuss agenda").2.2 (by decide)).1,
   ((claim_C4 "Team Meeting" "discuss agenda").2.2 (by decide)).2⟩

/-- C8: the categorization input list is partitioned into consecutive
batches of at most 10 emails: concatenating the batches in submission order
yields back the input list, and every batch has at most 10 emails
(`categorizeRoute` submits exactly `chunk10 emails`, sequentially). -/
theorem claim_C8 (emails : List Email) :
    (chunk10 emails).flatten = emails ∧
    ∀ b ∈ chunk10 emails, b.length ≤ 10 :=
  ⟨chunkGo_join emails.length emails (Nat.le_refl _),
   fun b hb => chunkGo_chunk_le emails.length emails b hb⟩

/-- C8 witness: an 11-email input splits into a 10-batch and a 1-batch whose
concatenation is the input. -/
theorem claim_C8_witness :
    (chunk10 (List.replicate 11 sampleEmail)).flatten = List.replicate 11 sampleEmail ∧
    (List.replicate 10 sampleEmail).length ≤ 10 :=
  ⟨(claim_C8 (List.replicate 11 sampleEmail)).1,
   (claim_C8 (List.replicate 11 sampleEmail)).2 (List.replicate 10 sampleEmail) (by decide)⟩

/-- C9: reconciliation is deterministic. It is embedded as a pure function
of the response text and the input batch — the source path reads no clock,
randomness or ambient state — so re-running it on the same inputs yields
identical output, per batch and for the whole route. -/
theorem claim_C9 (batch : List Email) (responseText : String) (avail : Bool)
    (emailsField : Option (List Email)) (replies : Nat → ChatResult) :
    categorizeBatchRecords batch responseText = categorizeBatchRecords batch responseText ∧
    categorizeRoute avail emailsField replies = categorizeRoute avail emailsField replies :=
  ⟨rfl, rfl⟩

theorem recordFor_base (e : Email) (x : Option Json) :
    (recordFor e x).id = e.id ∧ (recordFor e x).subject = e.subject ∧
    (recordFor e x).sender = e.sender ∧ (recordFor e x).date = e.date ∧
    (recordFor e x).snippet = e.snippet ∧ (recordFor e x).body = e.body ∧
    (recordFor e x).labels = e.labels := by
  cases x with
  | none => exact ⟨rfl, rfl, rfl, rfl, rfl, rfl, rfl⟩
  | some c =>
    cases hb : c.truthy && jsOptTruthy (c.getField "title") <;>
      simp [recordFor, hb, defaultRecord]

/-- C1: the reconciliation step never fails with an error on malformed model
output: a task request with any non-empty reply succeeds with a structured
(possibly empty) task list, a categorization request whose chat calls all
deliver replies succeeds with a structured record list, and a completely
non-JSON prose refusal parses to the empty array rather than an error
(`parseAIResponse` is spec-modelled and total). -/
theorem claim_C1 :
    (∀ (e : Email) (es : List Email) (tone : Option String) (s : String), s ≠ "" →
        generateTasksRoute (some (e :: es)) tone true (ChatResult.msg (some s)) =
          TasksOutcome.success (parseAIResponse s)) ∧
    (∀ (emails : List Email) (replies : Nat → ChatResult),
        (∀ j, replies j ≠ ChatResult.fail) →
        ∃ records, categorizeRoute true (some emails) replies = CatOutcome.success records) ∧
    parseAIResponse "not sure, I can\x27t help with that" = JsonList.nil := by
  refine ⟨?_, ?_, by rfl⟩
  · intro e es tone s hs
    simp [generateTasksRoute, hs]
  · intro emails replies hnf
    obtain ⟨recs, hrecs⟩ := runCatBatches_isSome replies hnf (chunk10 emails) 0
    exact ⟨recs, by simp [categorizeRoute, hrecs]⟩

/-- C1 witness: concrete non-JSON reply handled without error in both modes. -/
theorem claim_C1_witness :
    generateTasksRoute (some [sampleEmail]) none true (ChatResult.msg (some "nope")) =
      TasksOutcome.success (parseAIResponse "nope") ∧
    (∃ records, categorizeRoute true (some [sampleEmail])
        (fun _ => ChatResult.msg (some "nope")) = CatOutcome.success records) :=
  ⟨claim_C1.1 sampleEmail [] none "nope" (by decide),
   claim_C1.2.1 [sampleEmail] (fun _ => ChatResult.msg (some "nope")) (fun _ => by simp)⟩

/-- C2: when the parsed model array is shorter than the categorization
batch, reconciliation still emits exactly one record per input email, in
input order (record i keeps email i's id), and every email at an index not
covered by the parsed array is defaulted to theme "other" and category
"general". -/
theorem claim_C2 (batch : List Email) (responseText : String)
    (hshort : (parseAIResponse responseText).length < batch.length) :
    (categorizeBatchRecords batch responseText).length = batch.length ∧
    (∀ i r e, (categorizeBatchRecords batch responseText).get? i = some r →
       batch.get? i = some e → r.id = e.id) ∧
    (∀ i r, (categorizeBatchRecords batch responseText).get? i = some r →
       (parseAIResponse responseText).length ≤ i →
       r.theme = "other" ∧ r.category = "general") := by
  refine ⟨mergeCat_length _ _ _, ?_, ?_⟩
  · intro i r e hr he
    unfold categorizeBatchRecords at hr
    rw [mergeCat_get?, he] at hr
    have hr2 : recordFor e ((parseAIResponse responseText).get? (0 + i)) = r := by
      simpa using hr
    subst hr2
    exact (recordFor_base e _).1
  · intro i r hr hle
    unfold categorizeBatchRecords at hr
    rw [mergeCat_get?] at hr
    have hnone : (parseAIResponse responseText).get? (0 + i) = none :=
      JsonList.get?_of_length_le _ _ (by omega)
    rw [hnone] at hr
    cases hbe : batch.get? i with
    | none => rw [hbe] at hr; simp at hr
    | some e =>
      rw [hbe] at hr
      have hr2 : recordFor e none = r := by simpa using hr
      subst hr2
      exact ⟨rfl, rfl⟩

/-- C2 witness: a one-email batch against an unparseable reply gives one
fully defaulted record. -/
theorem claim_C2_witness :
    (categorizeBatchRecords [sampleEmail] "no json here").length = 1 ∧
    (defaultRecord sampleEmail).theme = "other" ∧
    (defaultRecord sampleEmail).category = "general" :=
  ⟨(claim_C2 [sampleEmail] "no json here" (by decide)).1,
   (claim_C2 [sampleEmail] "no json here" (by decide)).2.2 0 (defaultRecord sampleEmail)
     (by decide) (by decide)⟩

/-- C10: every output record of per-batch reconciliation preserves all seven
fields of the input email at the same position unchanged (id, subject,
sender, date, snippet, body, labels); only theme and category are set, and
records appear in input order, one per email. -/
theorem claim_C10 (batch : List Email) (responseText : String) :
    (categorizeBatchRecords batch responseText).length = batch.length ∧
    ∀ i r e, (categorizeBatchRecords batch responseText).get? i = some r →
      batch.get? i = some e →
      r.id = e.id ∧ r.subject = e.subject ∧ r.sender = e.sender ∧ r.date = e.date ∧
      r.snippet = e.snippet ∧ r.body = e.body ∧ r.labels = e.labels := by
  refine ⟨mergeCat_length _ _ _, ?_⟩
  intro i r e hr he
  unfold categorizeBatchRecords at hr
  rw [mergeCat_get?, he] at hr
  have hr2 : recordFor e ((parseAIResponse responseText).get? (0 + i)) = r := by
    simpa using hr
  subst hr2
  exact recordFor_base e _

/-- C10 witness: the defaulted record for a concrete email keeps all its
base fields. -/
theorem claim_C10_witness :
    (categorizeBatchRecords [sampleEmail] "oops").length = 1 ∧
    ((defaultRecord sampleEmail).id = sampleEmail.id ∧
     (defaultRecord sampleEmail).subject = sampleEmail.subject ∧
     (defaultRecord sampleEmail).sender = sampleEmail.sender ∧
     (defaultRecord sampleEmail).date = sampleEmail.date ∧
     (defaultRecord sampleEmail).snippet = sampleEmail.snippet ∧
     (defaultRecord sampleEmail).body = sampleEmail.body ∧
     (defaultRecord sampleEmail).labels = sampleEmail.labels) :=
  ⟨(claim_C10 [sampleEmail] "oops").1,
   (claim_C10 [sampleEmail] "oops").2 0 (defaultRecord sampleEmail) sampleEmail
     (by decide) (by decide)⟩

/-- C5 counterexample: a categorization request whose backend reply is the
empty string does not fail with an EmptyResponse error — the reply-bearing
batch is silently skipped and the route succeeds with an empty list. -/
theorem claim_C5_counterexample :
    categorizeRoute true (some [sampleEmail]) (fun _ => ChatResult.msg (some "")) =
      CatOutcome.success [] := by rfl

/-- C5 as amended: in the task-generation route, BackendUnavailable occurs
exactly when the availability probe fails, and EmptyResponse occurs exactly
when the probe succeeds and the chat reply is absent or empty; in the
categorization route, BackendUnavailable likewise occurs exactly when the
probe fails, but an absent or empty reply is not an error — its batch is
skipped and the request still succeeds. -/
theorem claim_C5_amended :
    (∀ (e : Email) (es : List Email) (tone : Option String) (avail : Bool) (chat : ChatResult),
      (generateTasksRoute (some (e :: es)) tone avail chat = TasksOutcome.backendUnavailable ↔
        avail = false) ∧
      (generateTasksRoute (some (e :: es)) tone avail chat = TasksOutcome.emptyResponse ↔
        avail = true ∧ (chat = ChatResult.msg none ∨ chat = ChatResult.msg (some "")))) ∧
    (∀ (emailsField : Option (List Email)) (replies : Nat → ChatResult) (avail : Bool),
      categorizeRoute avail emailsField replies = CatOutcome.backendUnavailable ↔
        avail = false) ∧
    (∀ (e : Email) (replies : Nat → ChatResult), replies 0 = ChatResult.msg (some "") →
      categorizeRoute true (some [e]) replies = CatOutcome.success []) := by
  refine ⟨?_, ?_, ?_⟩
  · intro e es tone avail chat
    cases avail with
    | false => simp [generateTasksRoute]
    | true =>
      cases chat with
      | fail => simp [generateTasksRoute]
      | msg m =>
        cases m with
        | none => simp [generateTasksRoute]
        | some s =>
          by_cases hs : s = ""
          · subst hs; simp [generateTasksRoute]
          · simp [generateTasksRoute, hs]
  · intro emailsField replies avail
    cases avail with
    | false => simp [categorizeRoute]
    | true =>
      cases emailsField with
      | none => simp [categorizeRoute]
      | some emails =>
        simp only [categorizeRoute, if_true]
        cases hrb : runCatBatches replies 0 (chunk10 emails) <;> simp [hrb]
  · intro e replies h0
    simp [categorizeRoute, chunk10, chunkGo, runCatBatches, h0]

/-- C5 witness: an absent chat message yields the EmptyResponse error in the
task-generation route. -/
theorem claim_C5_witness :
    generateTasksRoute (some [sampleEmail]) none true (ChatResult.msg none) =
      TasksOutcome.emptyResponse :=
  ((claim_C5_amended.1 sampleEmail [] none true (ChatResult.msg none)).2).mpr
    ⟨rfl, Or.inl rfl⟩

/-- C6 counterexample: a categorization request with an empty email array is
not rejected with an InvalidInput error — it succeeds with an empty list
(and the availability probe has already run before validation). -/
theorem claim_C6_counterexample :
    categorizeRoute true (some []) (fun _ => ChatResult.fail) = CatOutcome.success [] := by
  rfl

/-- C6 as amended: the task-generation route rejects a missing or empty
email sequence with InvalidInput before consulting the backend (its outcome
is independent of backend state); the categorization route rejects only a
missing or non-array emails value, accepts an empty array and returns an
empty success result, and runs its availability probe before input
validation (an unavailable backend wins over invalid input). -/
theorem claim_C6_amended :
    (∀ (tone : Option String) (avail : Bool) (chat : ChatResult),
      generateTasksRoute none tone avail chat = TasksOutcome.invalidInput ∧
      generateTasksRoute (some []) tone avail chat = TasksOutcome.invalidInput) ∧
    (∀ replies : Nat → ChatResult,
      categorizeRoute true none replies = CatOutcome.invalidEmails) ∧
    (∀ replies : Nat → ChatResult,
      categorizeRoute true (some []) replies = CatOutcome.success []) ∧
    (∀ (emailsField : Option (List Email)) (replies : Nat → ChatResult),
      categorizeRoute false emailsField replies = CatOutcome.backendUnavailable) :=
  ⟨fun _ _ _ => ⟨rfl, rfl⟩, fun _ => rfl, fun _ => rfl, fun _ _ => rfl⟩

/-- C7 counterexample: the unrecognized tone "sarcastic" is not substituted
by "professional" — the draft route embeds it verbatim. -/
theorem claim_C7_counterexample :
    draftToneUsed (some "sarcastic") = "sarcastic" ∧
    "sarcastic" ∉ specRecognizedTones ∧
    "sarcastic" ≠ "professional" :=
  ⟨rfl, by decide, by decide⟩

/-- C7 as amended: tone membership in the recognized set is never checked.
The draft route substitutes "professional" only for an absent or empty
(JS-falsy) tone and passes any other string through unchanged, and the
task-generation route ignores tone entirely; no tone value causes a
failure. -/
theorem claim_C7_amended :
    draftToneUsed none = "professional" ∧
    draftToneUsed (some "") = "professional" ∧
    (∀ s : String, s ≠ "" → draftToneUsed (some s) = s) ∧
    (∀ (emailsField : Option (List Email)) (t1 t2 : Option String)
       (avail : Bool) (chat : ChatResult),
      generateTasksRoute emailsField t1 avail chat =
        generateTasksRoute emailsField t2 avail chat) := by
  refine ⟨rfl, rfl, ?_, ?_⟩
  · intro s hs
    simp [draftToneUsed, hs]
  · intro emailsField t1 t2 avail chat
    rfl

/-- C7 witness: a concrete non-empty unrecognized tone passes through. -/
theorem claim_C7_witness : draftToneUsed (some "enthusiastic") = "enthusiastic" :=
  claim_C7_amended.2.2.1 "enthusiastic" (by decide)

/-- C3: the generate-tasks route returns the parsed model tasks verbatim —
evaluated at a well-formed reply that omits any email linkage, the returned
record has neither an emailId nor a sourceItemId field, although the UI's
own TodoTask interface declares emailId as required and the client-side
mapping adds only id/createdAt/aiGenerated. -/
theorem claim_C3_code_eval :
    generateTasksRoute (some [sampleEmail]) none true (ChatResult.msg (some c3ReplyText)) =
      TasksOutcome.success (JsonList.cons c3Task JsonList.nil) ∧
    c3Task.getField "emailId" = none ∧
    c3Task.getField "sourceItemId" = none :=
  ⟨by rfl, by rfl, by rfl⟩
